import Mathlib

/-!
Shallow embedding of the eshop cart / promo-code / order core
(src/apps/product/models.py, src/apps/cart/models.py, src/apps/order/models.py).

Conventions of the embedding:
* Machine integers of the source are modelled as `Int` (prices, stock
  quantities, usage counters) and monetary Decimal values as `Rat`.
* The product table is a total map `Store : Nat → Product` keyed by primary
  key; foreign keys in cart and order line items hold the key. Referential
  integrity of the ORM makes lookups total.
* `timezone.now()` is passed explicitly as a parameter `now : Int`.
* Methods that mutate `self` and save return the updated record explicitly.
-/

namespace EShop

/-- Truncation toward zero, the semantics of the Python `int()` conversion
applied to a nonintegral number. -/
def pyInt (x : ℚ) : ℤ := if 0 ≤ x then ⌊x⌋ else ⌈x⌉
/-- Product record, the fields used by the cart and order engines
(src/apps/product/models.py, class Product). -/
structure Product where
  price : ℤ
  stock_quantity : ℤ
  is_active : Bool
  on_sale : Bool
  discount_percentage : ℤ
deriving DecidableEq
/-- `Product.get_sale_price`: `int(price - (price * discount_percentage) / 100)`
when on sale with a positive percentage, otherwise the full price. -/
def Product.get_sale_price (p : Product) : ℤ :=
  if p.on_sale && decide (0 < p.discount_percentage) then
    pyInt ((p.price : ℚ) - ((p.price : ℚ) * (p.discount_percentage : ℚ)) / 100)
  else
    p.price
/-- `Product.can_order(quantity)`: active and enough stock. -/
def Product.can_order (p : Product) (quantity : ℤ) : Bool :=
  p.is_active && decide (quantity ≤ p.stock_quantity)
/-- `Product.reduce_stock(quantity)`: decrement guarded by a sufficiency check;
returns the updated record and the success flag. -/
def Product.reduce_stock (p : Product) (quantity : ℤ) : Product × Bool :=
  if quantity ≤ p.stock_quantity then
    ({ p with stock_quantity := p.stock_quantity - quantity }, true)
  else
    (p, false)
/-- `Product.increase_stock(quantity)`: unconditional increment. -/
def Product.increase_stock (p : Product) (quantity : ℤ) : Product :=
  { p with stock_quantity := p.stock_quantity + quantity }
/-- The product table, keyed by primary key. -/
abbrev Store := Nat → Product
/-- Row update of the product table at one key. -/
def Store.update (s : Store) (pid : Nat) (f : Product → Product) : Store :=
  fun i => if i = pid then f (s i) else s i
/-- `PromoCode.discount_type` choices. -/
inductive DiscountType where
  | fixed
  | percentage
deriving DecidableEq
/-- PromoCode record (src/apps/order/models.py, class PromoCode).
`max_usage` and `expiry_date` are nullable; `expiry_date` is a timestamp. -/
structure PromoCode where
  code : String
  discount_type : DiscountType
  discount_value : ℚ
  min_order_amount : ℚ
  max_usage : Option ℤ
  current_usage : ℤ
  expiry_date : Option ℤ
  is_active : Bool
deriving DecidableEq
/-- `PromoCode.is_valid`: active check, then expiry, then usage cap.
The Python guard `if self.max_usage and ...` is truthiness: it fires only
when `max_usage` is neither `None` nor `0`. -/
def PromoCode.is_valid (p : PromoCode) (now : ℤ) : Bool × String :=
  if p.is_active = false then
    (false, "Promo code is not active")
  else if (match p.expiry_date with
           | some e => decide (e < now)
           | none => false) then
    (false, "Promo code has expired")
  else if (match p.max_usage with
           | some m => !(m == 0) && decide (m ≤ p.current_usage)
           | none => false) then
    (false, "Promo code usage limit reached")
  else
    (true, "Valid")
/-- `PromoCode.can_apply(order_amount)`: validity then minimum order amount. -/
def PromoCode.can_apply (p : PromoCode) (now : ℤ) (order_amount : ℚ) : Bool × String :=
  let v := p.is_valid now
  if v.1 = false then
    (false, v.2)
  else if order_amount < p.min_order_amount then
    (false, "Minimum order amount is " ++ toString p.min_order_amount)
  else
    (true, "Can apply")
/-- `PromoCode.calculate_discount(order_amount)`: zero when the apply-check
fails, otherwise the type-dependent discount clamped to the order amount. -/
def PromoCode.calculate_discount (p : PromoCode) (now : ℤ) (order_amount : ℚ) : ℚ :=
  if (p.can_apply now order_amount).1 = false then
    0
  else
    let discount :=
      match p.discount_type with
      | .percentage => order_amount * p.discount_value / 100
      | .fixed => p.discount_value
    min discount order_amount
/-- Cart line item (src/apps/cart/models.py, class CartItem); the product,
size and color references are held by key. -/
structure CartItem where
  productId : Nat
  quantity : ℤ
  size : Option Nat
  color : Option Nat
deriving DecidableEq
/-- `CartItem.get_total_price`: full product price times quantity. -/
def CartItem.get_total_price (s : Store) (ci : CartItem) : ℤ :=
  (s ci.productId).price * ci.quantity
/-- Cart record; the applied promo code is referenced by its (unique) code. -/
structure Cart where
  items : List CartItem
  promo_code : Option String
  applied_discount : ℚ
deriving DecidableEq
/-- `Cart.get_total_items`: sum of line quantities. -/
def Cart.get_total_items (c : Cart) : ℤ :=
  (c.items.map (fun ci => ci.quantity)).sum
/-- `Cart.get_subtotal`: sum of line totals (before discount). -/
def Cart.get_subtotal (c : Cart) (s : Store) : ℤ :=
  (c.items.map (fun ci => ci.get_total_price s)).sum
/-- `Cart.get_total_price`: subtotal minus cached discount, clamped at zero. -/
def Cart.get_total_price (c : Cart) (s : Store) : ℚ :=
  max ((c.get_subtotal s : ℚ) - c.applied_discount) 0
/-- The Python `str.upper()` conversion: uppercase every character. -/
def strUpper (s : String) : String := ⟨s.data.map Char.toUpper⟩
/-- The `PromoCode.objects.get(code=...)` lookup: exact match on the unique
`code` column. -/
def findPromo (promos : List PromoCode) (code : String) : Option PromoCode :=
  promos.find? (fun p => p.code == code)
/-- `Cart.apply_promo_code(promo_code)`: looks up the uppercased input by
exact match, delegates to the apply-check against the current subtotal, and
on success stores the promo reference and the computed discount. -/
def Cart.apply_promo_code (c : Cart) (promos : List PromoCode) (now : ℤ) (s : Store)
    (input : String) : Cart × Bool × String :=
  match findPromo promos (strUpper input) with
  | none => (c, false, "Invalid promo code")
  | some promo =>
    let subtotal : ℚ := (c.get_subtotal s : ℚ)
    let res := promo.can_apply now subtotal
    if res.1 = false then
      (c, false, res.2)
    else
      let discount := promo.calculate_discount now subtotal
      ({ c with promo_code := some promo.code, applied_discount := discount },
       true, "Promo code applied! You saved " ++ toString discount)
/-- `Cart.remove_promo_code`: clear the reference and zero the discount. -/
def Cart.remove_promo_code (c : Cart) : Cart :=
  { c with promo_code := none, applied_discount := 0 }
/-- `Cart.clear_cart`: delete all items, then remove the promo code. -/
def Cart.clear_cart (c : Cart) : Cart :=
  Cart.remove_promo_code { c with items := [] }
/-- The `CartItem.objects.get_or_create` line update of `Cart.add_item`: the
first line matching (product, size, color) gets its quantity incremented,
otherwise a new line is appended. -/
def addToLine (items : List CartItem) (pid : Nat) (qty : ℤ)
    (size color : Option Nat) : List CartItem :=
  match items with
  | [] => [⟨pid, qty, size, color⟩]
  | ci :: rest =>
    if ci.productId == pid && ci.size == size && ci.color == color then
      { ci with quantity := ci.quantity + qty } :: rest
    else
      ci :: addToLine rest pid qty size color
/-- `Cart.add_item(product, quantity, size, color)`: line update followed by
re-application of the stored promo code when one is applied (the boolean
result of the re-application is discarded). -/
def Cart.add_item (c : Cart) (promos : List PromoCode) (now : ℤ) (s : Store)
    (pid : Nat) (qty : ℤ) (size color : Option Nat) : Cart :=
  let c1 : Cart := { c with items := addToLine c.items pid qty size color }
  match c1.promo_code with
  | some code => (c1.apply_promo_code promos now s code).1
  | none => c1
/-- `Order.status` choices. -/
inductive OrderStatus where
  | pending
  | confirmed
  | processing
  | shipped
  | delivered
  | cancelled
deriving DecidableEq
/-- Order line item (src/apps/order/models.py, class OrderItem). -/
structure OrderItem where
  productId : Nat
  quantity : ℤ
  size : Option Nat
  color : Option Nat
deriving DecidableEq
/-- Order record, the fields the core mutates. -/
structure Order where
  status : OrderStatus
  subtotal : ℚ
  shipping_cost : ℚ
  total_amount : ℚ
  items : List OrderItem
deriving DecidableEq
/-- Copy of a cart line into an order line, as in the creation loop of
`Order.create_from_cart`. -/
def toOrderItem (ci : CartItem) : OrderItem :=
  ⟨ci.productId, ci.quantity, ci.size, ci.color⟩
/-- `Order.can_cancel`: status in {pending, confirmed}. -/
def Order.can_cancel (o : Order) : Bool :=
  o.status == .pending || o.status == .confirmed
/-- The stock-restoration fold of `Order.cancel_order`: each order item puts
its quantity back onto its product. -/
def restoreStock (s : Store) (items : List OrderItem) : Store :=
  items.foldl (fun st it => st.update it.productId (fun p => p.increase_stock it.quantity)) s
/-- `Order.cancel_order`: when cancellable, restore stock for every item and
set the status to cancelled; returns the new store, the order, and success. -/
def Order.cancel_order (o : Order) (s : Store) : Store × Order × Bool :=
  if o.can_cancel then
    (restoreStock s o.items, { o with status := .cancelled }, true)
  else
    (s, o, false)
/-- The item-creation loop of `Order.create_from_cart`: for each cart line in
order, if the product passes `can_order` an order item is created and stock
reduced; at the first failing line the loop aborts, KEEPING the stock
reductions already performed (the deleted order cascades away its items but
no compensating stock restore happens in the source). -/
def createItemsLoop (s : Store) (items : List CartItem) : Store × Option (List OrderItem) :=
  match items with
  | [] => (s, some [])
  | ci :: rest =>
    if (s ci.productId).can_order ci.quantity then
      match createItemsLoop
          (s.update ci.productId (fun p => (p.reduce_stock ci.quantity).1)) rest with
      | (s2, some acc) => (s2, some (toOrderItem ci :: acc))
      | (s2, none) => (s2, none)
    else
      (s, none)
/-- `Order.create_from_cart(cart, address, shipping_cost)`: fails on an empty
cart; otherwise computes subtotal from the discounted cart total, runs the
item-creation loop, and on full success clears the cart. Returns the order
(or none), the resulting store, and the resulting cart. -/
def Order.create_from_cart (s : Store) (c : Cart) (shipping_cost : ℚ) :
    Option Order × Store × Cart :=
  if c.items.isEmpty then
    (none, s, c)
  else
    let subtotal := c.get_total_price s
    let total_amount := subtotal + shipping_cost
    match createItemsLoop s c.items with
    | (s1, some oitems) =>
      (some { status := .pending, subtotal := subtotal, shipping_cost := shipping_cost,
              total_amount := total_amount, items := oitems },
       s1, c.clear_cart)
    | (s1, none) => (none, s1, c)
/-- A plain in-stock product: price 100, stock 5, active, not on sale. -/
def prodA : Product :=
  { price := 100, stock_quantity := 5, is_active := true, on_sale := false,
    discount_percentage := 0 }
/-- An out-of-stock product: price 50, stock 0, active, not on sale. -/
def prodB : Product :=
  { price := 50, stock_quantity := 0, is_active := true, on_sale := false,
    discount_percentage := 0 }
/-- Product table holding `prodA` at key 0 and `prodB` everywhere else. -/
def storeAB : Store := fun i => if i = 0 then prodA else prodB
/-- Cart with two lines: 2 units of product 0, then 1 unit of the
out-of-stock product 1. -/
def cartC1 : Cart :=
  { items := [⟨0, 2, none, none⟩, ⟨1, 1, none, none⟩], promo_code := none,
    applied_discount := 0 }
/-- A valid percentage promo code: 10 percent off, no constraints. -/
def promoTen : PromoCode :=
  { code := "SAVE10", discount_type := .percentage, discount_value := 10,
    min_order_amount := 0, max_usage := none, current_usage := 0,
    expiry_date := none, is_active := true }
/-- An otherwise fully valid promo code whose `max_usage` is the stored
value 0 with `current_usage` 0, sitting exactly on the claimed boundary
`current_usage == max_usage`. -/
def promoZeroCap : PromoCode :=
  { code := "CAP0", discount_type := .percentage, discount_value := 10,
    min_order_amount := 0, max_usage := some 0, current_usage := 0,
    expiry_date := none, is_active := true }
/-- An active promo code whose expiry lies in the past while its usage
count far exceeds its cap. -/
def promoExpired : PromoCode :=
  { code := "OLD", discount_type := .fixed, discount_value := 5,
    min_order_amount := 0, max_usage := some 3, current_usage := 99,
    expiry_date := some (-5), is_active := true }
/-- Modelled from the spec wording, for comparison with the source: the
subtotal priced at the current unit price, where a product on sale with a
positive discount percentage is priced at its sale price. -/
def Cart.subtotalAtSalePrices (c : Cart) (s : Store) : ℤ :=
  (c.items.map (fun ci => (s ci.productId).get_sale_price * ci.quantity)).sum
/-- A product on sale at half price: price 100, 50 percent discount. -/
def prodSale : Product :=
  { price := 100, stock_quantity := 5, is_active := true, on_sale := true,
    discount_percentage := 50 }
/-- Product table holding `prodSale` at every key. -/
def storeSale : Store := fun _ => prodSale
/-- Cart holding one unit of the on-sale product. -/
def cartSale : Cart :=
  { items := [⟨0, 1, none, none⟩], promo_code := none, applied_discount := 0 }
/-- A fully valid promo code whose stored `code` column is lowercase. -/
def promoLower : PromoCode :=
  { code := "save10", discount_type := .percentage, discount_value := 10,
    min_order_amount := 0, max_usage := none, current_usage := 0,
    expiry_date := none, is_active := true }
/-- A deactivated promo code whose discount is still cached on a cart. -/
def promoInactive : PromoCode :=
  { code := "SAVE", discount_type := .percentage, discount_value := 10,
    min_order_amount := 0, max_usage := none, current_usage := 0,
    expiry_date := none, is_active := false }
/-- Cart that applied `promoInactive` while it was still active: the
reference and a cached discount of 10 are stored. -/
def cartStale : Cart :=
  { items := [⟨0, 1, none, none⟩], promo_code := some "SAVE",
    applied_discount := 10 }
/-- Cart holding one unit of product 0 with the valid code `promoTen`
applied while the subtotal was smaller. -/
def cartFresh : Cart :=
  { items := [⟨0, 1, none, none⟩], promo_code := some "SAVE10",
    applied_discount := 10 }
/-- The empty cart. -/
def cartEmpty : Cart := { items := [], promo_code := none, applied_discount := 0 }
/-- Cart holding 2 units of product 0, enough stock in `storeAB`. -/
def cartTwoA : Cart :=
  { items := [⟨0, 2, none, none⟩], promo_code := none, applied_discount := 0 }
/-- Fallback order record used only to project a known-successful result. -/
def defaultOrder : Order :=
  { status := .pending, subtotal := 0, shipping_cost := 0, total_amount := 0, items := [] }
/-- The result of the successful checkout of `cartTwoA` against `storeAB`. -/
def resTwoA := Order.create_from_cart storeAB cartTwoA 0
/-- The order created by the successful checkout of `cartTwoA`. -/
def ordTwoA : Order := resTwoA.1.getD defaultOrder
/-- An inactive product with ample stock. -/
def prodInactive : Product :=
  { price := 10, stock_quantity := 10, is_active := false, on_sale := false,
    discount_percentage := 0 }
/-- Product table holding `prodInactive` everywhere. -/
def storeInactive : Store := fun _ => prodInactive
/-- Cart requesting one unit of the inactive product. -/
def cartInactive : Cart :=
  { items := [⟨0, 1, none, none⟩], promo_code := none, applied_discount := 0 }
/-- Total quantity a cart line list requests of one product. -/
def cartQty : List CartItem → Nat → ℤ
  | [], _ => 0
  | ci :: rest, pid =>
    (if ci.productId = pid then ci.quantity else 0) + cartQty rest pid
/-- Total quantity an order line list holds of one product. -/
def orderQty : List OrderItem → Nat → ℤ
  | [], _ => 0
  | it :: rest, pid =>
    (if it.productId = pid then it.quantity else 0) + orderQty rest pid
/-- Global state of the core: the product table, the promo-code table, one
cart and the list of created orders. -/
structure Sys where
  store : Store
  promos : List PromoCode
  cart : Cart
  orders : List Order
/-- The core operations of the sequential execution model, with their call
arguments. -/
inductive Op where
  | addItem (pid : Nat) (qty : ℤ) (size color : Option Nat)
  | applyPromo (input : String)
  | removePromo
  | clearCart
  | checkout (sh : ℚ)
  | cancelOrder (idx : Nat)
  | reduceStock (pid : Nat) (qty : ℤ)
  | increaseStock (pid : Nat) (qty : ℤ)
/-- Domain validity of call arguments: quantities handed to the cart and to
`increase_stock` are nonnegative, as the source's PositiveIntegerField
columns and validated view inputs guarantee. -/
def Op.validArgs : Op → Bool
  | .addItem _ qty _ _ => decide (0 ≤ qty)
  | .increaseStock _ qty => decide (0 ≤ qty)
  | _ => true
/-- One sequential execution step of a core operation. -/
def Sys.step (now : ℤ) (sys : Sys) (op : Op) : Sys :=
  match op with
  | .addItem pid qty size color =>
    { sys with cart := sys.cart.add_item sys.promos now sys.store pid qty size color }
  | .applyPromo input =>
    { sys with cart := (sys.cart.apply_promo_code sys.promos now sys.store input).1 }
  | .removePromo => { sys with cart := sys.cart.remove_promo_code }
  | .clearCart => { sys with cart := sys.cart.clear_cart }
  | .checkout sh =>
    match Order.create_from_cart sys.store sys.cart sh with
    | (some o, s1, c1) =>
      { sys with store := s1, cart := c1, orders := sys.orders ++ [o] }
    | (none, s1, c1) => { sys with store := s1, cart := c1 }
  | .cancelOrder idx =>
    match sys.orders[idx]? with
    | some o =>
      { sys with store := (o.cancel_order sys.store).1,
                 orders := sys.orders.set idx (o.cancel_order sys.store).2.1 }
    | none => sys
  | .reduceStock pid qty =>
    { sys with store := sys.store.update pid (fun p => (p.reduce_stock qty).1) }
  | .increaseStock pid qty =>
    { sys with store := sys.store.update pid (fun p => p.increase_stock qty) }
/-- Every product in the table has nonnegative stock. -/
def StoreNonneg (s : Store) : Prop := ∀ pid, 0 ≤ (s pid).stock_quantity
/-- The inductive state invariant: nonnegative stocks, and nonnegative line
quantities in the cart and in every order. -/
def Sys.inv (sys : Sys) : Prop :=
  StoreNonneg sys.store ∧
  (∀ ci ∈ sys.cart.items, 0 ≤ ci.quantity) ∧
  (∀ o ∈ sys.orders, ∀ it ∈ o.items, 0 ≤ it.quantity)
/-- Sequential execution of a list of operations. -/
def Sys.run (now : ℤ) (sys : Sys) (ops : List Op) : Sys :=
  ops.foldl (Sys.step now) sys
/-- A product with 3 units of stock. -/
def prodThree : Product :=
  { price := 10, stock_quantity := 3, is_active := true, on_sale := false,
    discount_percentage := 0 }
/-- Initial state: `prodThree` everywhere, one promo code, empty cart. -/
def sysW9 : Sys :=
  { store := fun _ => prodThree, promos := [promoTen], cart := cartEmpty,
    orders := [] }
/-- A concrete run: fill the cart, check out, then over-reduce, restock and
cancel. -/
def opsW9 : List Op :=
  [.addItem 0 2 none none, .checkout 0, .reduceStock 0 5,
   .increaseStock 0 4, .cancelOrder 0]

/-! ## Theorems -/

/-- C6: for every promo code and order amount, when the apply-check holds,
`calculate_discount` equals `min (amount * value / 100) amount` for the
percentage type and `min value amount` for the fixed type, so the discount
never exceeds the order amount; when the apply-check fails it returns 0. -/
theorem C6_calculate_discount_clamped (p : PromoCode) (now : ℤ) (amount : ℚ) :
    (p.calculate_discount now amount =
      if (p.can_apply now amount).1 = true then
        match p.discount_type with
        | .percentage => min (amount * p.discount_value / 100) amount
        | .fixed => min p.discount_value amount
      else 0) ∧
    ((p.can_apply now amount).1 = true → p.calculate_discount now amount ≤ amount) := by
  constructor
  · unfold PromoCode.calculate_discount
    cases h : (p.can_apply now amount).1 <;> cases p.discount_type <;> simp [h]
  · intro h
    unfold PromoCode.calculate_discount
    cases p.discount_type <;> simp [h]
/-- C6 witness: at the concrete code `promoTen` and amount 1000 the
apply-check holds and the discount does not exceed the amount. -/
theorem C6_calculate_discount_clamped_witness :
    promoTen.calculate_discount 0 1000 ≤ 1000 :=
  (C6_calculate_discount_clamped promoTen 0 1000).2 (by decide)
/-- C7 counterexample: `promoZeroCap` has `max_usage` set and
`current_usage = max_usage`, so the claim demands rejection with the usage
message, yet `is_valid` accepts it: the Python guard
`if self.max_usage and ...` treats a stored cap of 0 as no cap at all. -/
theorem C7_counterexample_zero_cap :
    promoZeroCap.max_usage ≠ none ∧
    promoZeroCap.max_usage = some promoZeroCap.current_usage ∧
    promoZeroCap.is_valid 7 = (true, "Valid") := by decide
/-- C7 (amended): `is_valid` applies its checks in order — inactive first,
then expiry (regardless of usage), then usage cap, where the usage check
fires only for a nonzero stored cap (a cap of 0 is treated as unset), and
the boundary `current_usage = max_usage` is rejected; otherwise valid. -/
theorem C7_is_valid_check_order (p : PromoCode) (now : ℤ) :
    (p.is_active = false → p.is_valid now = (false, "Promo code is not active")) ∧
    (p.is_active = true → ∀ e, p.expiry_date = some e → e < now →
      p.is_valid now = (false, "Promo code has expired")) ∧
    (p.is_active = true → (∀ e, p.expiry_date = some e → now ≤ e) →
      ∀ m, p.max_usage = some m → m ≠ 0 → m ≤ p.current_usage →
      p.is_valid now = (false, "Promo code usage limit reached")) ∧
    (p.is_active = true → (∀ e, p.expiry_date = some e → now ≤ e) →
      (∀ m, p.max_usage = some m → m ≠ 0 → p.current_usage < m) →
      p.is_valid now = (true, "Valid")) := by
  refine ⟨?_, ?_, ?_, ?_⟩
  · intro h
    simp [PromoCode.is_valid, h]
  · intro ha e he hlt
    simp [PromoCode.is_valid, ha, he, hlt]
  · intro ha hexp m hm hm0 hle
    cases he : p.expiry_date with
    | none => simp [PromoCode.is_valid, ha, he, hm, hm0, hle]
    | some e =>
      have : now ≤ e := hexp e he
      simp [PromoCode.is_valid, ha, he, not_lt.mpr this, hm, hm0, hle]
  · intro ha hexp hcap
    cases he : p.expiry_date with
    | none =>
      cases hm : p.max_usage with
      | none => simp [PromoCode.is_valid, ha, he, hm]
      | some m =>
        by_cases h0 : m = 0
        · simp [PromoCode.is_valid, ha, he, hm, h0]
        · have := hcap m hm h0
          simp [PromoCode.is_valid, ha, he, hm, h0, not_le.mpr this]
    | some e =>
      have hne : now ≤ e := hexp e he
      cases hm : p.max_usage with
      | none => simp [PromoCode.is_valid, ha, he, not_lt.mpr hne, hm]
      | some m =>
        by_cases h0 : m = 0
        · simp [PromoCode.is_valid, ha, he, not_lt.mpr hne, hm, h0]
        · have := hcap m hm h0
          simp [PromoCode.is_valid, ha, he, not_lt.mpr hne, hm, h0, not_le.mpr this]
/-- C7 witness: the expired code is rejected with the expiry message even
though its usage count also exceeds the cap (expiry is checked first). -/
theorem C7_is_valid_check_order_witness :
    promoExpired.is_valid 0 = (false, "Promo code has expired") :=
  (C7_is_valid_check_order promoExpired 0).2.1 rfl (-5) rfl (by decide)
/-- C1: checking out `cartC1` (2 units of product 0, then 1 unit of the
out-of-stock product 1) fails and persists no order, but the stock of
product 0 — reduced before the failing line — is left at 3 instead of its
pre-call value 5: the source deletes the order without restoring stock. -/
theorem C1_failed_checkout_loses_stock :
    (Order.create_from_cart storeAB cartC1 0).1 = none ∧
    ((Order.create_from_cart storeAB cartC1 0).2.1 0).stock_quantity = 3 ∧
    (storeAB 0).stock_quantity = 5 := by decide
/-- C4 counterexample: for a cart with one unit of an on-sale product
(price 100, discount 50 percent, sale price 50) the claim says the subtotal
is 50, but `get_subtotal` returns 100: the source prices cart lines at
`product.price` and never consults `get_sale_price`. -/
theorem C4_counterexample_sale_price_ignored :
    prodSale.on_sale = true ∧ 0 < prodSale.discount_percentage ∧
    prodSale.get_sale_price = 50 ∧
    cartSale.get_subtotal storeSale = 100 ∧
    cartSale.subtotalAtSalePrices storeSale = 50 := by
  refine ⟨rfl, by decide, ?_, by decide, ?_⟩ <;>
    norm_num [Cart.subtotalAtSalePrices, Product.get_sale_price, pyInt,
      prodSale, storeSale, cartSale]
/-- C4 (amended): `get_subtotal` sums the full `price` times quantity over
the lines; the sale price is never used, so the subtotal is insensitive to
the `on_sale` flag and the discount percentage of every product. -/
theorem C4_subtotal_uses_full_price (s : Store) (c : Cart) (b : Bool) (d : ℤ) :
    c.get_subtotal s = (c.items.map (fun ci => (s ci.productId).price * ci.quantity)).sum ∧
    Cart.get_subtotal c (fun i => { s i with on_sale := b, discount_percentage := d }) =
      c.get_subtotal s := by
  exact ⟨rfl, rfl⟩
/-- C3 counterexample: the stored code `"save10"` matches the input
`"save10"` up to letter case and is valid, yet `apply_promo_code` fails
with "Invalid promo code": the source uppercases the input and then
requires an exact match, so a lowercase stored code is never found. -/
theorem C3_counterexample_lowercase_stored_code :
    strUpper promoLower.code = strUpper "save10" ∧
    promoLower.is_valid 0 = (true, "Valid") ∧
    cartC1.apply_promo_code [promoLower] 0 storeAB "save10" =
      (cartC1, false, "Invalid promo code") := by decide
/-- C3 (amended): `apply_promo_code` uppercases the input and looks the
code up by exact match (so only stored codes equal to the uppercased input
are found); when no stored code equals the uppercased input it fails with
"Invalid promo code"; and on every failure the cart — in particular its
promo reference and `applied_discount` — is left unchanged. -/
theorem C3_apply_promo_code_failure_behavior (promos : List PromoCode) (now : ℤ)
    (s : Store) (c : Cart) (input : String) :
    ((∀ p ∈ promos, p.code ≠ strUpper input) →
      c.apply_promo_code promos now s input = (c, false, "Invalid promo code")) ∧
    ((c.apply_promo_code promos now s input).2.1 = false →
      (c.apply_promo_code promos now s input).1 = c) ∧
    ((∃ p ∈ promos, p.code = strUpper input) →
      findPromo promos (strUpper input) ≠ none) := by
  refine ⟨?_, ?_, ?_⟩
  · intro h
    have hf : findPromo promos (strUpper input) = none := by
      unfold findPromo
      rw [List.find?_eq_none]
      intro p hp
      simp [h p hp]
    unfold Cart.apply_promo_code
    rw [hf]
  · intro hfail
    unfold Cart.apply_promo_code at hfail ⊢
    cases hf : findPromo promos (strUpper input) with
    | none => rfl
    | some promo =>
      by_cases hca : (promo.can_apply now ((c.get_subtotal s : ℤ) : ℚ)).1 = false
      · simp [hca]
      · rw [hf] at hfail
        simp [hca] at hfail
  · rintro ⟨p, hp, he⟩ hnone
    unfold findPromo at hnone
    rw [List.find?_eq_none] at hnone
    exact hnone p hp (by simp [he])
/-- C3 witness: with no stored promo codes at all, applying the code "X"
fails with "Invalid promo code" and leaves the cart unchanged. -/
theorem C3_apply_promo_code_failure_behavior_witness :
    cartC1.apply_promo_code [] 0 storeAB "X" = (cartC1, false, "Invalid promo code") :=
  (C3_apply_promo_code_failure_behavior [] 0 storeAB cartC1 "X").1 (by simp)
/-- C2 counterexample: after `add_item` on a cart whose applied promo code
has since been deactivated, the re-application fails and the cached
`applied_discount` stays at its stale value 10, while a fresh recomputation
against the current subtotal and promo rules yields 0. -/
theorem C2_counterexample_stale_discount :
    (cartStale.add_item [promoInactive] 0 storeAB 0 1 none none).applied_discount = 10 ∧
    promoInactive.calculate_discount 0
      (((cartStale.add_item [promoInactive] 0 storeAB 0 1 none none).get_subtotal
        storeAB : ℤ) : ℚ) = 0 ∧
    (10 : ℚ) ≠ 0 :=
  ⟨rfl, rfl, by norm_num⟩
/-- C2 (amended): after `add_item` on a cart with a promo code applied, the
code is re-applied from scratch against the new subtotal; if the
re-application succeeds, `applied_discount` equals the fresh recomputation
against the current subtotal, but if it fails the previously cached
`applied_discount` is kept unchanged rather than being reset to 0. -/
theorem C2_add_item_revalidation (promos : List PromoCode) (now : ℤ) (s : Store)
    (c : Cart) (pid : Nat) (qty : ℤ) (size color : Option Nat) (code : String)
    (h : c.promo_code = some code) :
    (c.add_item promos now s pid qty size color =
      (Cart.apply_promo_code { c with items := addToLine c.items pid qty size color }
        promos now s code).1) ∧
    ((Cart.apply_promo_code { c with items := addToLine c.items pid qty size color }
        promos now s code).2.1 = false →
      (c.add_item promos now s pid qty size color).applied_discount =
        c.applied_discount) ∧
    (∀ p, findPromo promos (strUpper code) = some p →
      (Cart.apply_promo_code { c with items := addToLine c.items pid qty size color }
        promos now s code).2.1 = true →
      (c.add_item promos now s pid qty size color).applied_discount =
        p.calculate_discount now
          ((Cart.get_subtotal { c with items := addToLine c.items pid qty size color }
            s : ℤ) : ℚ)) := by
  have hstep : c.add_item promos now s pid qty size color =
      (Cart.apply_promo_code { c with items := addToLine c.items pid qty size color }
        promos now s code).1 := by
    unfold Cart.add_item
    simp only [h]
  refine ⟨hstep, ?_, ?_⟩
  · intro hfail
    rw [hstep]
    unfold Cart.apply_promo_code at hfail ⊢
    cases hf : findPromo promos (strUpper code) with
    | none => rfl
    | some promo =>
      by_cases hca : (promo.can_apply now
          ((Cart.get_subtotal { c with items := addToLine c.items pid qty size color }
            s : ℤ) : ℚ)).1 = false
      · simp [hca]
      · rw [hf] at hfail
        simp [hca] at hfail
  · intro p hf htrue
    rw [hstep]
    unfold Cart.apply_promo_code at htrue ⊢
    rw [hf] at htrue ⊢
    by_cases hca : (p.can_apply now
        ((Cart.get_subtotal { c with items := addToLine c.items pid qty size color }
          s : ℤ) : ℚ)).1 = false
    · simp [hca] at htrue
    · simp [hca]
/-- C2 witness: adding one more unit re-applies `promoTen` and the cached
discount equals the fresh recomputation against the new subtotal. -/
theorem C2_add_item_revalidation_witness :
    (cartFresh.add_item [promoTen] 0 storeAB 0 1 none none).applied_discount =
      promoTen.calculate_discount 0
        ((Cart.get_subtotal { cartFresh with
          items := addToLine cartFresh.items 0 1 none none } storeAB : ℤ) : ℚ) :=
  (C2_add_item_revalidation [promoTen] 0 storeAB cartFresh 0 1 none none
    "SAVE10" rfl).2.2 promoTen (by decide) (by decide)
/-- C8: `create_from_cart` returns no order on an empty cart; on success the
order subtotal is the discounted cart total `get_total_price` (not the raw
subtotal), the total is subtotal plus shipping, and the source cart is
cleared including its promo code. -/
theorem C8_create_from_cart_totals (s : Store) (c : Cart) (sh : ℚ) :
    (c.items = [] → (Order.create_from_cart s c sh).1 = none) ∧
    (∀ o s1 c1, Order.create_from_cart s c sh = (some o, s1, c1) →
      o.subtotal = c.get_total_price s ∧
      o.shipping_cost = sh ∧
      o.total_amount = c.get_total_price s + sh ∧
      c1 = c.clear_cart ∧
      c1.items = [] ∧ c1.promo_code = none ∧ c1.applied_discount = 0) := by
  constructor
  · intro h
    unfold Order.create_from_cart
    simp [h]
  · intro o s1 c1 h
    unfold Order.create_from_cart at h
    split at h
    · simp at h
    · split at h
      · simp only [Prod.mk.injEq, Option.some.injEq] at h
        obtain ⟨ho, hs, hc⟩ := h
        subst ho hs hc
        exact ⟨rfl, rfl, rfl, rfl, rfl, rfl, rfl⟩
      · simp at h
/-- C8 witness: the empty cart yields no order, and the concrete successful
checkout of `cartTwoA` has the claimed totals and clears the cart. -/
theorem C8_create_from_cart_totals_witness :
    (Order.create_from_cart storeAB cartEmpty 0).1 = none ∧
    (ordTwoA.subtotal = cartTwoA.get_total_price storeAB ∧
     ordTwoA.shipping_cost = 0 ∧
     ordTwoA.total_amount = cartTwoA.get_total_price storeAB + 0 ∧
     resTwoA.2.2 = cartTwoA.clear_cart ∧
     resTwoA.2.2.items = [] ∧ resTwoA.2.2.promo_code = none ∧
     resTwoA.2.2.applied_discount = 0) :=
  ⟨(C8_create_from_cart_totals storeAB cartEmpty 0).1 rfl,
   (C8_create_from_cart_totals storeAB cartTwoA 0).2 ordTwoA resTwoA.2.1 resTwoA.2.2 rfl⟩
/-- A stock reduction never changes the active flag. -/
theorem reduce_stock_fst_is_active (p : Product) (q : ℤ) :
    ((p.reduce_stock q).1).is_active = p.is_active := by
  unfold Product.reduce_stock
  split <;> rfl
/-- If some line of the list references an inactive product, the
item-creation loop fails. -/
theorem loop_none_of_inactive :
    ∀ (items : List CartItem) (s : Store),
      (∃ ci ∈ items, (s ci.productId).is_active = false) →
      (createItemsLoop s items).2 = none := by
  intro items
  induction items with
  | nil =>
    rintro s ⟨ci, hmem, _⟩
    exact absurd hmem (List.not_mem_nil ci)
  | cons ci rest ih =>
    rintro s ⟨cj, hmem, hbad⟩
    unfold createItemsLoop
    rcases List.mem_cons.mp hmem with heq | hrest
    · subst heq
      have hco : (s cj.productId).can_order cj.quantity = false := by
        unfold Product.can_order
        simp [hbad]
      simp [hco]
    · by_cases hco : (s ci.productId).can_order ci.quantity = true
      · simp only [hco, if_true]
        have hbad1 : ((s.update ci.productId
            (fun p => (p.reduce_stock ci.quantity).1)) cj.productId).is_active = false := by
          show (if cj.productId = ci.productId
              then ((s cj.productId).reduce_stock ci.quantity).1
              else s cj.productId).is_active = false
          by_cases hx : cj.productId = ci.productId
          · rw [if_pos hx, reduce_stock_fst_is_active]
            exact hbad
          · rw [if_neg hx]
            exact hbad
        have hres := ih (s.update ci.productId fun p => (p.reduce_stock ci.quantity).1)
          ⟨cj, hrest, hbad1⟩
        cases hl : createItemsLoop (s.update ci.productId
            fun p => (p.reduce_stock ci.quantity).1) rest with
        | mk s2 r =>
          rw [hl] at hres
          cases r with
          | none => simp
          | some acc => simp at hres
      · have hcof : (s ci.productId).can_order ci.quantity = false := by
          simpa using hco
        simp [hcof]
/-- C10: checking out a cart that contains a line whose product is inactive
fails (returns no order), because `can_order` requires the product to be
active, whatever its stock level. -/
theorem C10_inactive_product_fails_checkout (s : Store) (c : Cart) (sh : ℚ)
    (ci : CartItem) (h1 : ci ∈ c.items) (h2 : (s ci.productId).is_active = false) :
    (Order.create_from_cart s c sh).1 = none := by
  unfold Order.create_from_cart
  split
  · rfl
  · have hn := loop_none_of_inactive c.items s ⟨ci, h1, h2⟩
    cases hl : createItemsLoop s c.items with
    | mk s2 r =>
      rw [hl] at hn
      cases r with
      | none => simp
      | some acc => simp at hn
/-- C10 witness: the inactive product has stock 10 ≥ 1 requested, yet the
checkout returns no order. -/
theorem C10_inactive_product_fails_checkout_witness :
    (1 : ℤ) ≤ (storeInactive 0).stock_quantity ∧
    (Order.create_from_cart storeInactive cartInactive 0).1 = none :=
  ⟨by decide,
   C10_inactive_product_fails_checkout storeInactive cartInactive 0
     ⟨0, 1, none, none⟩ (by decide) (by decide)⟩
/-- The copy of cart lines into order lines preserves per-product totals. -/
theorem orderQty_map_toOrderItem :
    ∀ (items : List CartItem) (pid : Nat),
      orderQty (items.map toOrderItem) pid = cartQty items pid := by
  intro items
  induction items with
  | nil => intro pid; rfl
  | cons ci rest ih =>
    intro pid
    simp only [List.map, orderQty, cartQty, toOrderItem, ih]
/-- Evaluation of a row update of the product table. -/
theorem store_update_apply (s : Store) (pid : Nat) (f : Product → Product) (x : Nat) :
    (s.update pid f) x = if x = pid then f (s x) else s x := rfl
/-- A stock increase adds the quantity. -/
theorem increase_stock_stock (p : Product) (q : ℤ) :
    (p.increase_stock q).stock_quantity = p.stock_quantity + q := rfl
/-- A guarded stock reduction with sufficient stock subtracts the quantity. -/
theorem reduce_stock_fst_stock (p : Product) (q : ℤ) (h : q ≤ p.stock_quantity) :
    ((p.reduce_stock q).1).stock_quantity = p.stock_quantity - q := by
  unfold Product.reduce_stock
  simp [h]
/-- A successful `can_order` check implies sufficient stock. -/
theorem can_order_le (p : Product) (q : ℤ) (h : p.can_order q = true) :
    q ≤ p.stock_quantity := by
  unfold Product.can_order at h
  simp at h
  exact h.2
/-- The stock-restoration fold adds each product's ordered quantity. -/
theorem restoreStock_stock :
    ∀ (items : List OrderItem) (s : Store) (pid : Nat),
      ((restoreStock s items) pid).stock_quantity =
        (s pid).stock_quantity + orderQty items pid := by
  intro items
  induction items with
  | nil => intro s pid; simp [restoreStock, orderQty]
  | cons it rest ih =>
    intro s pid
    have hstep : restoreStock s (it :: rest) =
        restoreStock (s.update it.productId fun p => p.increase_stock it.quantity) rest := rfl
    rw [hstep, ih]
    rw [store_update_apply]
    simp only [orderQty]
    by_cases hx : pid = it.productId
    · rw [if_pos hx, increase_stock_stock, if_pos hx.symm]
      omega
    · rw [if_neg hx, if_neg (fun hh => hx hh.symm)]
      omega
/-- A successful item-creation loop copies the cart lines into order lines
and subtracts each product's requested quantity from its stock. -/
theorem createItemsLoop_spec :
    ∀ (items : List CartItem) (s s1 : Store) (acc : List OrderItem),
      createItemsLoop s items = (s1, some acc) →
      acc = items.map toOrderItem ∧
      ∀ pid, (s1 pid).stock_quantity = (s pid).stock_quantity - cartQty items pid := by
  intro items
  induction items with
  | nil =>
    intro s s1 acc h
    unfold createItemsLoop at h
    simp only [Prod.mk.injEq, Option.some.injEq] at h
    obtain ⟨hs, hacc⟩ := h
    subst hs
    refine ⟨hacc.symm, ?_⟩
    intro pid
    simp [cartQty]
  | cons ci rest ih =>
    intro s s1 acc h
    unfold createItemsLoop at h
    by_cases hco : (s ci.productId).can_order ci.quantity = true
    · rw [if_pos hco] at h
      cases hl : createItemsLoop (s.update ci.productId
          fun p => (p.reduce_stock ci.quantity).1) rest with
      | mk s2 r =>
        rw [hl] at h
        cases r with
        | none => simp at h
        | some acc2 =>
          simp only [Prod.mk.injEq, Option.some.injEq] at h
          obtain ⟨hs, hacc⟩ := h
          subst hs
          obtain ⟨ha2, hst2⟩ := ih _ _ _ hl
          constructor
          · rw [← hacc, ha2]
            rfl
          · intro pid
            rw [hst2 pid, store_update_apply]
            simp only [cartQty]
            by_cases hx : pid = ci.productId
            · subst hx
              rw [if_pos rfl, reduce_stock_fst_stock _ _ (can_order_le _ _ hco),
                if_pos rfl]
              omega
            · rw [if_neg hx, if_neg (fun hh => hx hh.symm)]
              omega
    · rw [if_neg hco] at h
      simp at h
/-- C5: for every order produced by a successful `create_from_cart`,
immediately cancelling it succeeds and puts every product's stock back at
exactly its value from before the checkout. -/
theorem C5_checkout_cancel_roundtrip (s : Store) (c : Cart) (sh : ℚ)
    (o : Order) (s1 : Store) (c1 : Cart)
    (h : Order.create_from_cart s c sh = (some o, s1, c1)) :
    (o.cancel_order s1).2.2 = true ∧
    ∀ pid, ((o.cancel_order s1).1 pid).stock_quantity = (s pid).stock_quantity := by
  unfold Order.create_from_cart at h
  split at h
  · simp at h
  · split at h
    · rename_i s2 oitems heq
      simp only [Prod.mk.injEq, Option.some.injEq] at h
      obtain ⟨ho, hs, hc⟩ := h
      subst ho hs hc
      obtain ⟨hacc, hst⟩ := createItemsLoop_spec c.items s s2 oitems heq
      constructor
      · rfl
      · intro pid
        show ((restoreStock s2 oitems) pid).stock_quantity = (s pid).stock_quantity
        rw [restoreStock_stock oitems s2 pid, hst pid, hacc, orderQty_map_toOrderItem]
        omega
    · simp at h
/-- C5 witness: for the concrete successful checkout of `cartTwoA` against
`storeAB`, cancelling restores every stock value exactly. -/
theorem C5_checkout_cancel_roundtrip_witness :
    (ordTwoA.cancel_order resTwoA.2.1).2.2 = true ∧
    ∀ pid, ((ordTwoA.cancel_order resTwoA.2.1).1 pid).stock_quantity =
      (storeAB pid).stock_quantity :=
  C5_checkout_cancel_roundtrip storeAB cartTwoA 0 ordTwoA resTwoA.2.1 resTwoA.2.2 rfl
/-- The guarded stock reduction keeps stock nonnegative: either the
sufficiency check passes (leaving `stock - q ≥ 0`) or nothing changes. -/
theorem reduce_stock_fst_nonneg (p : Product) (q : ℤ) (h : 0 ≤ p.stock_quantity) :
    0 ≤ ((p.reduce_stock q).1).stock_quantity := by
  unfold Product.reduce_stock
  by_cases hq : q ≤ p.stock_quantity
  · rw [if_pos hq]
    show 0 ≤ p.stock_quantity - q
    omega
  · rw [if_neg hq]
    exact h
/-- A row update with a nonnegativity-preserving function preserves
nonnegativity of the table. -/
theorem update_nonneg (s : Store) (pid : Nat) (f : Product → Product)
    (hs : StoreNonneg s)
    (hf : ∀ p, 0 ≤ p.stock_quantity → 0 ≤ (f p).stock_quantity) :
    StoreNonneg (s.update pid f) := by
  intro x
  rw [store_update_apply]
  by_cases hx : x = pid
  · rw [if_pos hx]
    exact hf _ (hs x)
  · rw [if_neg hx]
    exact hs x
/-- The item-creation loop keeps every stock nonnegative, whether it
succeeds or aborts partway. -/
theorem loop_fst_nonneg :
    ∀ (items : List CartItem) (s : Store), StoreNonneg s →
      StoreNonneg (createItemsLoop s items).1 := by
  intro items
  induction items with
  | nil => intro s hs; exact hs
  | cons ci rest ih =>
    intro s hs
    unfold createItemsLoop
    by_cases hco : (s ci.productId).can_order ci.quantity = true
    · rw [if_pos hco]
      have hs1 : StoreNonneg (s.update ci.productId
          fun p => (p.reduce_stock ci.quantity).1) :=
        update_nonneg _ _ _ hs (fun p hp => reduce_stock_fst_nonneg p _ hp)
      have hres := ih _ hs1
      cases hl : createItemsLoop (s.update ci.productId
          fun p => (p.reduce_stock ci.quantity).1) rest with
      | mk s2 r =>
        rw [hl] at hres
        cases r <;> exact hres
    · rw [if_neg hco]
      exact hs
/-- Checkout keeps every stock nonnegative, also on failure. -/
theorem create_store_nonneg (s : Store) (c : Cart) (sh : ℚ) (h : StoreNonneg s) :
    StoreNonneg (Order.create_from_cart s c sh).2.1 := by
  unfold Order.create_from_cart
  split
  · exact h
  · have hres := loop_fst_nonneg c.items s h
    cases hl : createItemsLoop s c.items with
    | mk s2 r =>
      rw [hl] at hres
      cases r <;> exact hres
/-- Checkout either clears the cart or leaves it unchanged. -/
theorem create_cart_result (s : Store) (c : Cart) (sh : ℚ) :
    (Order.create_from_cart s c sh).2.2 = c.clear_cart ∨
    (Order.create_from_cart s c sh).2.2 = c := by
  unfold Order.create_from_cart
  split
  · exact Or.inr rfl
  · cases hl : createItemsLoop s c.items with
    | mk s2 r =>
      cases r
      · exact Or.inr rfl
      · exact Or.inl rfl
/-- A successfully created order carries exactly the cart lines. -/
theorem create_some_items (s : Store) (c : Cart) (sh : ℚ) (o : Order)
    (s1 : Store) (c1 : Cart)
    (h : Order.create_from_cart s c sh = (some o, s1, c1)) :
    o.items = c.items.map toOrderItem := by
  unfold Order.create_from_cart at h
  split at h
  · simp at h
  · split at h
    · rename_i s2 oitems heq
      simp only [Prod.mk.injEq, Option.some.injEq] at h
      obtain ⟨ho, _, _⟩ := h
      subst ho
      exact (createItemsLoop_spec c.items s s2 oitems heq).1
    · simp at h
/-- Restoring nonnegative quantities keeps every stock nonnegative. -/
theorem restore_nonneg :
    ∀ (items : List OrderItem) (s : Store),
      (∀ it ∈ items, 0 ≤ it.quantity) → StoreNonneg s →
      StoreNonneg (restoreStock s items) := by
  intro items
  induction items with
  | nil => intro s _ hs; exact hs
  | cons it rest ih =>
    intro s hq hs
    have hstep : restoreStock s (it :: rest) =
        restoreStock (s.update it.productId fun p => p.increase_stock it.quantity) rest := rfl
    rw [hstep]
    refine ih _ (fun x hx => hq x (List.mem_cons_of_mem it hx)) ?_
    refine update_nonneg _ _ _ hs (fun p hp => ?_)
    have hq0 := hq it (List.mem_cons_self it rest)
    rw [increase_stock_stock]
    omega
/-- Cancelling keeps every stock nonnegative when the order quantities are
nonnegative. -/
theorem cancel_store_nonneg (o : Order) (s : Store)
    (hq : ∀ it ∈ o.items, 0 ≤ it.quantity) (hs : StoreNonneg s) :
    StoreNonneg (o.cancel_order s).1 := by
  unfold Order.cancel_order
  split
  · exact restore_nonneg o.items s hq hs
  · exact hs
/-- Cancelling never changes the order lines. -/
theorem cancel_snd_items (o : Order) (s : Store) :
    ((o.cancel_order s).2.1).items = o.items := by
  unfold Order.cancel_order
  split <;> rfl
/-- Applying a promo code never changes the cart lines. -/
theorem apply_promo_items (c : Cart) (promos : List PromoCode) (now : ℤ)
    (s : Store) (input : String) :
    ((c.apply_promo_code promos now s input).1).items = c.items := by
  unfold Cart.apply_promo_code
  cases findPromo promos (strUpper input) with
  | none => rfl
  | some promo =>
    by_cases hca : (promo.can_apply now ((c.get_subtotal s : ℤ) : ℚ)).1 = false
    · simp [hca]
    · simp [hca]
/-- The line update of `add_item` preserves nonnegative quantities when the
added quantity is nonnegative. -/
theorem addToLine_nonneg :
    ∀ (items : List CartItem) (pid : Nat) (qty : ℤ) (size color : Option Nat),
      (∀ ci ∈ items, 0 ≤ ci.quantity) → 0 ≤ qty →
      ∀ ci ∈ addToLine items pid qty size color, 0 ≤ ci.quantity := by
  intro items
  induction items with
  | nil =>
    intro pid qty size color _ hq ci hci
    unfold addToLine at hci
    simp at hci
    rw [hci]
    exact hq
  | cons cj rest ih =>
    intro pid qty size color hall hq ci hci
    unfold addToLine at hci
    by_cases hmatch : (cj.productId == pid && cj.size == size && cj.color == color) = true
    · rw [if_pos hmatch] at hci
      rcases List.mem_cons.mp hci with hh | hr
      · subst hh
        have hcj := hall cj (List.mem_cons_self cj rest)
        show 0 ≤ cj.quantity + qty
        omega
      · exact hall ci (List.mem_cons_of_mem cj hr)
    · rw [if_neg hmatch] at hci
      rcases List.mem_cons.mp hci with hh | hr
      · rw [hh]
        exact hall cj (List.mem_cons_self cj rest)
      · exact ih pid qty size color
          (fun x hx => hall x (List.mem_cons_of_mem cj hx)) hq ci hr
/-- `add_item` performs exactly the line update on the cart lines. -/
theorem add_item_items (c : Cart) (promos : List PromoCode) (now : ℤ) (s : Store)
    (pid : Nat) (qty : ℤ) (size color : Option Nat) :
    (c.add_item promos now s pid qty size color).items =
      addToLine c.items pid qty size color := by
  unfold Cart.add_item
  dsimp only
  cases hp : c.promo_code with
  | none => rfl
  | some code => rw [apply_promo_items]
/-- Every operation with valid arguments preserves the state invariant. -/
theorem step_preserves_inv (now : ℤ) (sys : Sys) (op : Op)
    (h : sys.inv) (hv : op.validArgs = true) : (sys.step now op).inv := by
  obtain ⟨hstore, hcart, horders⟩ := h
  cases op with
  | addItem pid qty size color =>
    have hq : 0 ≤ qty := of_decide_eq_true hv
    refine ⟨hstore, ?_, horders⟩
    intro ci hci
    rw [show (sys.step now (Op.addItem pid qty size color)).cart =
        sys.cart.add_item sys.promos now sys.store pid qty size color from rfl,
      add_item_items] at hci
    exact addToLine_nonneg sys.cart.items pid qty size color hcart hq ci hci
  | applyPromo input =>
    refine ⟨hstore, ?_, horders⟩
    intro ci hci
    rw [show (sys.step now (Op.applyPromo input)).cart =
        (sys.cart.apply_promo_code sys.promos now sys.store input).1 from rfl,
      apply_promo_items] at hci
    exact hcart ci hci
  | removePromo => exact ⟨hstore, hcart, horders⟩
  | clearCart =>
    refine ⟨hstore, ?_, horders⟩
    intro ci hci
    exact absurd hci (List.not_mem_nil ci)
  | checkout sh =>
    show (match Order.create_from_cart sys.store sys.cart sh with
      | (some o, s1, c1) =>
        { sys with store := s1, cart := c1, orders := sys.orders ++ [o] }
      | (none, s1, c1) => { sys with store := s1, cart := c1 }).inv
    have hsn := create_store_nonneg sys.store sys.cart sh hstore
    have hcr := create_cart_result sys.store sys.cart sh
    cases hc : Order.create_from_cart sys.store sys.cart sh with
    | mk oopt rest2 =>
      rw [hc] at hsn hcr
      cases rest2 with
      | mk s1 c1 =>
        have hcartOK : ∀ ci ∈ c1.items, 0 ≤ ci.quantity := by
          intro ci hci
          rcases hcr with hcl | hsame
          · rw [show ((oopt, s1, c1).2.2 : Cart) = c1 from rfl] at hcl
            rw [hcl] at hci
            exact absurd hci (List.not_mem_nil ci)
          · rw [show ((oopt, s1, c1).2.2 : Cart) = c1 from rfl] at hsame
            rw [hsame] at hci
            exact hcart ci hci
        cases oopt with
        | none => exact ⟨hsn, hcartOK, horders⟩
        | some o =>
          refine ⟨hsn, hcartOK, ?_⟩
          intro o2 ho2
          rcases List.mem_append.mp ho2 with hold | hnew
          · exact horders o2 hold
          · have ho2o : o2 = o := by
              rcases List.mem_cons.mp hnew with hh | hh
              · exact hh
              · exact absurd hh (List.not_mem_nil o2)
            subst ho2o
            intro it hit
            rw [create_some_items sys.store sys.cart sh o2 s1 c1 hc] at hit
            rcases List.mem_map.mp hit with ⟨ci, hci, hcieq⟩
            rw [← hcieq]
            exact hcart ci hci
  | cancelOrder idx =>
    show (match sys.orders[idx]? with
      | some o =>
        { sys with store := (o.cancel_order sys.store).1,
                   orders := sys.orders.set idx (o.cancel_order sys.store).2.1 }
      | none => sys).inv
    cases hg : sys.orders[idx]? with
    | none => exact ⟨hstore, hcart, horders⟩
    | some o =>
      have hom : o ∈ sys.orders := List.getElem?_mem hg
      have hoq : ∀ it ∈ o.items, 0 ≤ it.quantity := horders o hom
      refine ⟨cancel_store_nonneg o sys.store hoq hstore, hcart, ?_⟩
      intro o2 ho2
      rcases List.mem_or_eq_of_mem_set ho2 with hold | hnew
      · exact horders o2 hold
      · subst hnew
        intro it hit
        rw [cancel_snd_items] at hit
        exact hoq it hit
  | reduceStock pid qty =>
    exact ⟨update_nonneg _ _ _ hstore
      (fun p hp => reduce_stock_fst_nonneg p _ hp), hcart, horders⟩
  | increaseStock pid qty =>
    have hq : 0 ≤ qty := of_decide_eq_true hv
    refine ⟨update_nonneg _ _ _ hstore (fun p hp => ?_), hcart, horders⟩
    rw [increase_stock_stock]
    omega
/-- Running any sequence of valid operations preserves the invariant. -/
theorem run_inv (now : ℤ) :
    ∀ (ops : List Op) (sys : Sys), sys.inv →
      (∀ op ∈ ops, op.validArgs = true) → (Sys.run now sys ops).inv := by
  intro ops
  induction ops with
  | nil => intro sys h _; exact h
  | cons op rest ih =>
    intro sys h hv
    exact ih _ (step_preserves_inv now sys op h (hv op (List.mem_cons_self op rest)))
      (fun x hx => hv x (List.mem_cons_of_mem op hx))
/-- C9: along every sequential execution of the core operations with valid
call arguments from a valid state, every product's stock stays at or above
zero; and in particular `reduce_stock` with a quantity exceeding the stock
returns False and leaves the record unchanged. -/
theorem C9_stock_never_negative (now : ℤ) (sys : Sys) (ops : List Op)
    (h : sys.inv) (hv : ∀ op ∈ ops, op.validArgs = true) :
    (∀ pid, 0 ≤ (((Sys.run now sys ops).store) pid).stock_quantity) ∧
    (∀ (p : Product) (q : ℤ), p.stock_quantity < q → p.reduce_stock q = (p, false)) := by
  constructor
  · exact (run_inv now ops sys h hv).1
  · intro p q hlt
    unfold Product.reduce_stock
    rw [if_neg (by omega)]
/-- C9 witness: the concrete run keeps every stock nonnegative. -/
theorem C9_stock_never_negative_witness :
    (∀ pid, 0 ≤ (((Sys.run 0 sysW9 opsW9).store) pid).stock_quantity) ∧
    (∀ (p : Product) (q : ℤ), p.stock_quantity < q → p.reduce_stock q = (p, false)) :=
  C9_stock_never_negative 0 sysW9 opsW9
    ⟨fun _ => show (0 : ℤ) ≤ 3 by decide, by simp [sysW9, cartEmpty], by simp [sysW9]⟩
    (by decide)

end EShop
